import Mathlib

/-!
# Verification of the RomCom `Store` / `DataTable` / `Meta` / `DataBase` layer

Shallow embedding of the persistence layer of the RomCom repository
(`rc/base/models.py` and `romcomma/base/models.py`, which are near-identical;
differences that matter are embedded separately and noted where they occur).

Modelling conventions:
* Cell values are rationals (`Rat`); the spec's "within floating tolerance"
  becomes exact equality of the modelled values.
* A `pandas.DataFrame` is modelled by its row index labels, its (possibly
  multi-level) column labels, and its cell values.
* A `.csv` file is modelled structurally: a list of rows whose cells are
  either text or numbers.  This abstracts the decimal rendering that
  `to_csv`/`read_csv` perform, which is faithful up to the floating
  tolerance the spec grants.
* The file system is an association list from paths (lists of components) to
  nodes (file or directory), so that all operations stay executable and all
  frame conditions are decidable on concrete states.
-/

namespace RomCom

/-- Cell values; floats of the source are modelled as exact rationals. -/
abbrev Val := Rat

/-- Model of a `pandas.DataFrame`: row-index labels, column labels (one list
of level names per column, all of the same length = number of header levels),
and the rectangular cell values.  This is the in-memory payload of the
source's `DataTable._pd`. -/
structure DataFrame where
  index : List String
  columns : List (List String)
  values : List (List Val)
deriving DecidableEq, Repr

/-- Number of header levels of the columns (pandas `columns.nlevels`);
1 for an empty frame. -/
def DataFrame.headerLevels (df : DataFrame) : Nat :=
  (df.columns.head?.map List.length).getD 1

/-- Number of rows (pandas `len(df.index)`). -/
def DataFrame.nRows (df : DataFrame) : Nat := df.index.length

/-- Number of columns (pandas `len(df.columns)`). -/
def DataFrame.nCols (df : DataFrame) : Nat := df.columns.length

/-- Well-formedness of the `DataFrame` model: values rectangular and aligned
with index/columns, all column tuples of the same positive level count,
and at least one column. -/
def DataFrame.wfb (df : DataFrame) : Bool :=
  df.values.length = df.index.length &&
  df.values.all (fun r => r.length = df.columns.length) &&
  df.columns.all (fun c => c.length = df.headerLevels) &&
  decide (1 ≤ df.headerLevels) &&
  decide (1 ≤ df.columns.length)

/-- A bare numeric matrix (`numpy.ndarray` of rank 2). -/
abbrev Mat := List (List Val)

/-- Column count of a matrix. -/
def Mat.nCols (m : Mat) : Nat := (m.head?.map List.length).getD 0

/-- A matrix is rectangular. -/
def Mat.wfb (m : Mat) : Bool := m.all (fun r => r.length = Mat.nCols m)

/-- numpy broadcast compatibility from shape `(r, c)` to `(R, C)`:
each source dimension must equal the target dimension or `1`. -/
def npBroadcastOK (r c R C : Nat) : Bool :=
  (r = R || r = 1) && (c = C || c = 1)

/-- The value grid of a rank-2 numpy broadcast: replicate the source along
every size-1 dimension. -/
def npBroadcastVals (m : Mat) (R C : Nat) : Mat :=
  (List.range R).map fun i =>
    (List.range C).map fun j =>
      ((m.getD (if m.length = 1 then 0 else i) []).getD
        (if Mat.nCols m = 1 then 0 else j) 0)

/-- `np.broadcast_to` for rank-2 arrays; `none` models the `ValueError`
numpy raises when the shapes are incompatible. -/
def npBroadcastTo (m : Mat) (R C : Nat) : Option Mat :=
  if npBroadcastOK m.length (Mat.nCols m) R C then some (npBroadcastVals m R C)
  else none

/-- `np.diagonal` of a rank-2 array: the main diagonal, of length
`min rows cols`. -/
def npDiagonal (m : Mat) : List Val :=
  (List.range (min m.length (Mat.nCols m))).map fun i => (m.getD i []).getD i 0

/-- `np.diag` of a vector: the square matrix holding the vector on its main
diagonal and zero elsewhere. -/
def npDiag (v : List Val) : Mat :=
  (List.range v.length).map fun i =>
    (List.range v.length).map fun j => if i = j then v.getD i 0 else 0

/-! ## CSV files (`DataFrame.to_csv` / `pd.read_csv`) -/

/-- A CSV cell is either text (labels, headers) or a number (data cells);
this abstracts the decimal rendering `to_csv` performs. -/
inductive CsvCell where
  | str (s : String)
  | num (v : Val)
deriving DecidableEq, Repr

/-- A `.csv` file: a list of rows of cells. -/
structure CsvFile where
  rows : List (List CsvCell)
deriving DecidableEq, Repr

/-- Render a cell as text, as `read_csv` does for header and index cells. -/
def cellStr : CsvCell → String
  | .str s => s
  | .num v => toString v

/-- Parse a cell as a number; a text cell in a data position is a parse
mismatch for the numeric tables this repository stores. -/
def cellNum : CsvCell → Except Unit Val
  | .num v => .ok v
  | .str _ => .error ()

/-- `DataFrame.to_csv` with the write options this repository uses
(`{}` / `{'index': True}`, i.e. header and index both written): one header
row per column level, each led by an empty cell over the index column,
followed by one row per index entry. -/
def toCsv (df : DataFrame) : CsvFile :=
  ⟨(List.range df.headerLevels).map (fun L =>
      CsvCell.str "" :: df.columns.map (fun c => CsvCell.str (c.getD L "")))
    ++ List.zipWith (fun i r => CsvCell.str i :: r.map CsvCell.num) df.index df.values⟩

/-- `pd.read_csv` with `index_col=0` and `header=[0..h-1]` (the read options
this repository uses): the first `h` rows become the column levels, the
first cell of every later row becomes the index label, and the remaining
cells must be numeric. -/
def readCsvFile (f : CsvFile) (h : Nat) : Except Unit DataFrame :=
  if h = 0 then .error () else
  let headers := f.rows.take h
  let body := f.rows.drop h
  let width := ((f.rows.head?).map List.length).getD 0
  match body.mapM (fun row => (row.drop 1).mapM cellNum) with
  | .error e => .error e
  | .ok values =>
    .ok ⟨body.map (fun row => cellStr (row.getD 0 (.str ""))),
         (List.range (width - 1)).map (fun j =>
            headers.map (fun row => cellStr (row.getD (j + 1) (.str "")))),
         values⟩

/-! ### List helpers and the CSV round trip -/

/-! ## File-system model and `Store` path handling -/

/-- A file on disk: a `.csv` table or a `.json` metadata record
(`Meta` values are modelled as strings). -/
inductive File where
  | csv (f : CsvFile)
  | json (m : List (String × String))
deriving DecidableEq, Repr

/-- A file-system node: a regular file or a directory. -/
inductive Node where
  | file (f : File)
  | dir
deriving DecidableEq, Repr

/-- A path, as its list of components. -/
abbrev FPath := List String

/-- The file system: an association list from paths to nodes. -/
abbrev FS := List (FPath × Node)

/-- Look a path up in the file system. -/
def FS.get (fs : FS) (p : FPath) : Option Node :=
  (fs.find? (fun e => e.1 = p)).map (fun e => e.2)

/-- Store a node at a path, replacing any previous node there. -/
def FS.set (fs : FS) (p : FPath) (n : Node) : FS :=
  (p, n) :: fs.filter (fun e => ¬ e.1 = p)

/-- Remove the node at a path, if any. -/
def FS.remove (fs : FS) (p : FPath) : FS :=
  fs.filter (fun e => ¬ e.1 = p)

/-- `p` is `q` or an ancestor of `q`. -/
def pathIsUnder (q p : FPath) : Bool := p = q.take p.length

/-- `shutil.rmtree`: remove a path and everything below it. -/
def FS.removeTree (fs : FS) (p : FPath) : FS :=
  fs.filter (fun e => ¬ pathIsUnder e.1 p)

/-- Split a character list at every `'.'` (the pieces, in order). -/
def splitChars : List Char → List (List Char)
  | [] => [[]]
  | c :: cs =>
    if c = '.' then [] :: splitChars cs
    else
      match splitChars cs with
      | [] => [[c]]
      | h :: t => (c :: h) :: t

/-- Split a string at every dot, as `str.split('.')` does. -/
def splitOnDot (s : String) : List String :=
  (splitChars s.toList).map (fun cs => ⟨cs⟩)

/-- Join pieces back with dots. -/
def joinDots : List String → String
  | [] => ""
  | [s] => s
  | s :: rest => s ++ "." ++ joinDots rest

/-- Python `PurePath.with_suffix` on a single name: replace the extension
(the part from the last dot, when that dot is not the leading character)
or append `ext` when there is none. -/
def withExt (name ext : String) : String :=
  match splitOnDot name with
  | [] => name ++ ext
  | [_] => name ++ ext
  | ["", _] => name ++ ext
  | parts => joinDots parts.dropLast ++ ext

/-- `Path(p).with_suffix(ext)`: adjust the last component. -/
def withSuffix (p : FPath) (ext : String) : FPath :=
  if p = [] then [] else p.dropLast ++ [withExt (p.getLastD "") ext]

/-- The Python exceptions the embedded code can raise. -/
inductive PyErr where
  | typeError
  | attributeError
  | valueError
  | indexError
  | keyError (k : String)
  | fileNotFound (p : FPath)
  | fileExists (p : FPath)
  | parseError
deriving DecidableEq, Repr

/-- Equality of embedded outcomes is decidable, so concrete runs can be
checked by evaluation. -/
instance {ε α : Type} [DecidableEq ε] [DecidableEq α] : DecidableEq (Except ε α) :=
  fun a b =>
    match a, b with
    | .ok x, .ok y =>
      if h : x = y then isTrue (by rw [h]) else isFalse (by intro he; cases he; exact h rfl)
    | .error x, .error y =>
      if h : x = y then isTrue (by rw [h]) else isFalse (by intro he; cases he; exact h rfl)
    | .ok _, .error _ => isFalse (by intro he; cases he)
    | .error _, .ok _ => isFalse (by intro he; cases he)

/-- One step of `Path.mkdir`: make `p` a directory; a regular file already
at `p` is a kind mismatch (`FileExistsError`). -/
def mkdirOne (fs : FS) (p : FPath) : Except PyErr FS :=
  match fs.get p with
  | some (.file _) => .error (.fileExists p)
  | some .dir => .ok fs
  | none => .ok (fs.set p .dir)

/-- `Path.mkdir(parents=True, exist_ok=True)`: make every nonempty prefix of
`p` a directory. -/
def mkdirParents (fs : FS) (p : FPath) : Except PyErr FS :=
  (List.range p.length).foldlM (fun fs i => mkdirOne fs (p.take (i + 1))) fs

/-- Every nonempty prefix of `p` is already a directory (the usual state of
an existing store folder); under this hypothesis `mkdirParents` is inert. -/
def dirsReady (fs : FS) (p : FPath) : Bool :=
  (List.range p.length).all (fun i => fs.get (p.take (i + 1)) = some .dir)

/-- `Store.delete` (`rc/base/models.py`, `romcomma/base/models.py`):
normalize the suffix, then `rmtree` a directory, `unlink` a file, and do
nothing for an absent path (`missing_ok=True`). -/
def Store.delete (ext : String) (fs : FS) (p : FPath) : FS :=
  match fs.get (withSuffix p ext) with
  | some .dir => fs.removeTree (withSuffix p ext)
  | some (.file _) => fs.remove (withSuffix p ext)
  | none => fs

/-! ### File-system lookup lemmas -/

/-! ## `DataTable` -/

/-- Disk traffic: one event per `pd.read_csv` call and per `to_csv` call. -/
inductive IOEvent where
  | readF (p : FPath)
  | writeF (p : FPath)
deriving DecidableEq, Repr

/-- Is this event a file read? -/
def IOEvent.isRead : IOEvent → Bool
  | .readF _ => true
  | .writeF _ => false

/-- Is this event a file write? -/
def IOEvent.isWrite : IOEvent → Bool
  | .readF _ => false
  | .writeF _ => true

/-- The `data` argument accepted by `DataTable.__call__` / `__init__`
(`Data = DataFrame | NP.Matrix | ...` plus a `DataTable`); a `DataTable`
argument is consulted only through its `.pd`, which is what `tbl` carries. -/
inductive TData where
  | tbl (pdv : DataFrame)
  | df (d : DataFrame)
  | mat (m : Mat)
deriving DecidableEq, Repr

/-- An in-memory `DataTable`: its (already suffixed) path and its frame.
The instance `read_options`/`write_options` dictionaries are not carried:
the options this repository ever passes are modelled directly by
`toCsv`/`readCsvFile` (header levels for reads; default header+index
writes). -/
structure DataTable where
  path : FPath
  pd : DataFrame
deriving DecidableEq, Repr

/-- `self._pd.iloc[:, :] = data`: numpy-broadcast `data` onto the existing
frame's shape, keeping index and columns; an incompatible shape raises
`ValueError`.  (`self._pd` keeps its labels: only cell values change.) -/
def ilocSetAll (pd : DataFrame) (m : Mat) : Except PyErr DataFrame :=
  match npBroadcastTo m pd.nRows pd.nCols with
  | some v => .ok { pd with values := v }
  | none => .error .valueError

/-- `DataTable.__call__(data)` with `path=None` (the only way the repository
invokes it on an existing instance or from `__init__`): dispatch on the
runtime type of `data`, then write the frame to the table's file.
`pd?` is the current `self._pd` — `none` when `__call__` runs from
`__init__` before any `_pd` was assigned, in which case the matrix
fall-through touches the missing attribute (`AttributeError`). -/
def DataTable.callNoPath (pd? : Option DataFrame) (path : FPath)
    (data : Option TData) (fs : FS) :
    Except PyErr (DataFrame × FS × List IOEvent) := do
  let pd' ← match data with
    | some (.tbl t) => .ok t
    | some (.df d) => .ok d
    | some (.mat m) =>
      match pd? with
      | none => .error .attributeError
      | some pd => ilocSetAll pd m
    | none =>
      match pd? with
      | none => .error .attributeError
      | some pd => .ok pd
  .ok (pd', fs.set path (.file (.csv (toCsv pd'))), [.writeF path])

/-- `DataTable.__init__(path, data, **options)`: suffix the path, make the
parent folders, then either read the `.csv` (one read, immediately
re-written by the `self(...)` call) or store the supplied data.
`readHeader` is the table's `read_options` header-level count. -/
def DataTable.init (fs : FS) (path : FPath) (data : Option TData)
    (readHeader : Nat) :
    Except PyErr (DataTable × FS × List IOEvent) := do
  let fs ← mkdirParents fs (withSuffix path ".csv").dropLast
  match data with
  | none => do
    let df ← match fs.get (withSuffix path ".csv") with
      | some (.file (.csv f)) =>
        match readCsvFile f readHeader with
        | .ok df => .ok df
        | .error _ => .error .parseError
      | some _ => .error .parseError
      | none => .error (.fileNotFound (withSuffix path ".csv"))
    let (pd, fs, tr) ← DataTable.callNoPath none (withSuffix path ".csv") (some (.df df)) fs
    .ok (⟨withSuffix path ".csv", pd⟩, fs, .readF (withSuffix path ".csv") :: tr)
  | some d => do
    let (pd, fs, tr) ← DataTable.callNoPath none (withSuffix path ".csv") (some d) fs
    .ok (⟨withSuffix path ".csv", pd⟩, fs, tr)

/-- `pd.DataFrame(m)` on a bare matrix: default `RangeIndex` rows and
columns, rendered as labels. -/
def dfOfMat (m : Mat) : DataFrame :=
  ⟨(List.range m.length).map toString,
   (List.range (Mat.nCols m)).map (fun j => [toString j]),
   m⟩

/-- `DataTable.create(path, data, ...)`: wrap `data` in `pd.DataFrame` (a
`DataTable` argument contributes its `.pd`) and construct. -/
def DataTable.create (fs : FS) (path : FPath) (data : TData) :
    Except PyErr (DataTable × FS × List IOEvent) :=
  let d : DataFrame :=
    match data with
    | .tbl t => t
    | .df d => d
    | .mat m => dfOfMat m
  DataTable.init fs path (some (.df d)) 1

/-- `DataTable.broadcast_to(target_shape, is_diagonal)`: numpy-broadcast the
stored matrix to `(R, C)` (an impossible broadcast becomes `IndexError`),
optionally reduce to the diagonal square matrix when `target_shape[0] > 1`,
then hand the result to `self(data)` — which assigns it back into the frame
of the *original* shape and stores. -/
def DataTable.broadcastTo (t : DataTable) (fs : FS) (R C : Nat)
    (isDiag : Bool) : Except PyErr (DataTable × FS × List IOEvent) := do
  let data ← match npBroadcastTo t.pd.values R C with
    | none => .error .indexError
    | some d => .ok d
  let data := if isDiag && decide (R > 1) then npDiag (npDiagonal data) else data
  let (pd', fs', tr) ← DataTable.callNoPath (some t.pd) t.path (some (.mat data)) fs
  .ok (⟨t.path, pd'⟩, fs', tr)

/-! ## `Meta` -/

/-- `Meta` metadata: a string-keyed record (values modelled as strings). -/
abbrev MetaData := List (String × String)

/-- Right-biased Python `dict |` merge: left keys (right values winning),
then the right-only keys. -/
def mdMerge (a b : MetaData) : MetaData :=
  a.map (fun e => (e.1, ((b.find? (fun x => x.1 = e.1)).map (fun x => x.2)).getD e.2))
    ++ b.filter (fun x => (a.find? (fun e => e.1 = x.1)).isNone)

/-- `Meta.__call__(path, **data)`: re-normalize the path, merge `data` into
`self._data`, and dump the record, overwriting. -/
def Meta.call (cur : MetaData) (path : FPath) (updates : MetaData) (fs : FS) :
    Except PyErr (MetaData × FPath × FS) := do
  let fs ← mkdirParents fs (withSuffix path ".json").dropLast
  .ok (mdMerge cur updates, withSuffix path ".json",
       fs.set (withSuffix path ".json") (.file (.json (mdMerge cur updates))))

/-- `Meta.__init__(path, **data)`: with no data, read the `.json` record
from disk; otherwise adopt `data` and immediately persist it via
`self(path)`. -/
def Meta.init (fs : FS) (path : FPath) (data : MetaData) :
    Except PyErr (MetaData × FPath × FS) := do
  let fs ← mkdirParents fs (withSuffix path ".json").dropLast
  if data = [] then
    match fs.get (withSuffix path ".json") with
    | some (.file (.json m)) => .ok (m, withSuffix path ".json", fs)
    | some _ => .error .parseError
    | none => .error (.fileNotFound (withSuffix path ".json"))
  else
    Meta.call data path [] fs

/-- The placeholder record `Meta.create` substitutes for empty data. -/
def metaPlaceholder : MetaData := [("NotImplemented", "in call to Meta.create()")]

/-- `Meta.create(path, **data)`: construct from `data`, or from the
placeholder record when `data` is empty. -/
def Meta.create (fs : FS) (path : FPath) (data : MetaData) :
    Except PyErr (MetaData × FPath × FS) :=
  Meta.init fs path (if data = [] then metaPlaceholder else data)

/-! ## `DataBase`

A concrete `DataBase` subclass is a `DBSpec`: the declared table names, the
default frame of each table (the `Tables(NamedTuple)` field defaults), and
the per-table `read_options` header-level counts.  Both `rc` and `romcomma`
share this structure; the one behavioural difference (`tables_as_dict` as
`@property` versus plain method, which breaks rc's `copy`) is embedded
separately below. -/

/-- A concrete `DataBase` subclass: `table_names()`, `table_defaults()` and
`read_options` (modelled by the header-level count each table is read
with). -/
structure DBSpec where
  clsName : String
  names : List String
  defaults : List (String × DataFrame)
  readHeader : String → Nat

/-- An in-memory `DataBase` instance: its folder and its named tables. -/
structure DB where
  path : FPath
  tables : List (String × DataTable)
deriving DecidableEq, Repr

/-- Keyword-argument lookup. -/
def lookupTD (args : List (String × TData)) (n : String) : Option TData :=
  (args.find? (fun e => e.1 = n)).map (fun e => e.2)

/-- Python `dict` merge `a | b`: keys of `a` in order with `b`'s values
winning, then the keys only in `b`. -/
def dictMergeTD (a b : List (String × TData)) : List (String × TData) :=
  a.map (fun e => (e.1, (lookupTD b e.1).getD e.2)) ++
    b.filter (fun x => (lookupTD a x.1).isNone)

/-- The on-disk file of a declared table: `(path / name).with_suffix('.csv')`. -/
def tableFile (path : FPath) (name : String) : FPath :=
  withSuffix (path ++ [name]) ".csv"

/-- The diagnostic `DataBase.__init__` prints before re-raising a
`FileNotFoundError`, as the ordered fragments of its f-string. -/
def dbReadDiag (clsName dbName : String) : List String :=
  ["DataBase \"", dbName,
   "\" is trying to read a non-existent DataTable. Did your script mean to call ",
   clsName, ".create(\"", dbName, "\") instead of ", clsName, "(\"", dbName, "\")?"]

/-- The table-construction comprehension of `DataBase.__init__`: in
declaration order, a supplied table is constructed from its ready value
(with the table's `write_options`), every other table is read from its file
(with the table's `read_options`). -/
def initOne (path : FPath) (args : List (String × TData))
    (readHeader : String → Nat) (name : String) (fs : FS) :
    Except PyErr (DataTable × FS × List IOEvent) :=
  match lookupTD args name with
  | some d => DataTable.init fs (path ++ [name]) (some d) 1
  | none => DataTable.init fs (path ++ [name]) none (readHeader name)

def initTables (path : FPath) (args : List (String × TData))
    (readHeader : String → Nat) :
    List String → FS → Except PyErr (List (String × DataTable) × FS × List IOEvent)
  | [], fs => .ok ([], fs, [])
  | name :: rest, fs => do
    let (t, fs, tr) ← initOne path args readHeader name fs
    let (ts, fs', tr') ← initTables path args readHeader rest fs
    .ok ((name, t) :: ts, fs', tr ++ tr')

/-- `DataBase.__init__(path, **tables)`: make the folder, run the
comprehension, and on `FileNotFoundError` print the create-suggestion
diagnostic before re-raising (other exceptions propagate silently). -/
def DataBase.init (spec : DBSpec) (fs : FS) (path : FPath)
    (args : List (String × TData)) :
    Except (PyErr × List String) (DB × FS × List IOEvent) :=
  match mkdirParents fs path with
  | .error e => .error (e, [])
  | .ok fs =>
    match initTables path args spec.readHeader spec.names fs with
    | .ok (ts, fs, tr) => .ok (⟨path, ts⟩, fs, tr)
    | .error (.fileNotFound p) =>
      .error (.fileNotFound p, dbReadDiag spec.clsName (path.getLastD ""))
    | .error e => .error (e, [])

/-- `DataBase.create(path, **tables)`: construct from
`table_defaults() | tables` (caller overrides win). -/
def DataBase.create (spec : DBSpec) (fs : FS) (path : FPath)
    (args : List (String × TData)) :
    Except (PyErr × List String) (DB × FS × List IOEvent) :=
  DataBase.init spec fs path
    (dictMergeTD (spec.defaults.map (fun e => (e.1, TData.df e.2))) args)

/-- The `path` argument `Store.__call__` can receive.  Because of the
walrus-precedence slip in `DataBase.__call__` it receives the *boolean*
`True` there; `pathlib.Path` refuses a bool with `TypeError`. -/
inductive StorePathArg where
  | noneArg
  | boolArg (b : Bool)
  | pathArg (p : FPath)

/-- `Store.__call__(path)`: `None` keeps everything; any other value is
normalized by `_create` — a `Path(...)` of a bool raises `TypeError`, a
real path is suffixed and its folders are made. -/
def Store.callArg (ext : String) (fs : FS) (cur : FPath) (a : StorePathArg) :
    Except PyErr (FPath × FS) :=
  match a with
  | .noneArg => .ok (cur, fs)
  | .boolArg _ => .error .typeError
  | .pathArg p => do
    let p := withSuffix p ext
    let fs ← if ext = "" then mkdirParents fs p else mkdirParents fs p.dropLast
    .ok (p, fs)

/-- Replace one named table of a `DataBase`. -/
def DB.setTable (db : DB) (name : String) (t : DataTable) : DB :=
  ⟨db.path, db.tables.map (fun e => if e.1 = name then (name, t) else e)⟩

/-- The else-branch of `DataBase.__call__`: for every keyword argument,
update that table in place (`all_tables[name](data, **write_options)`); an
undeclared name indexes past the dict (`KeyError`). -/
def updateInPlace :
    List (String × TData) → DB → FS → Except PyErr (DB × FS × List IOEvent)
  | [], db, fs => .ok (db, fs, [])
  | (name, d) :: rest, db, fs =>
    match db.tables.find? (fun e => e.1 = name) with
    | none => .error (.keyError name)
    | some (_, t) => do
      let (pd', fs, tr) ← DataTable.callNoPath (some t.pd) t.path (some d) fs
      let (db', fs', tr') ← updateInPlace rest (db.setTable name ⟨t.path, pd'⟩) fs
      .ok (db', fs', tr ++ tr')

/-- The then-branch of `DataBase.__call__` (reached only if
`super().__call__` returned): recreate every declared table at the updated
path, each from its keyword value or, failing that, its current table. -/
def relocateTables (newPath : FPath) (args : List (String × TData)) :
    List (String × DataTable) → FS → Except PyErr (List (String × DataTable) × FS × List IOEvent)
  | [], fs => .ok ([], fs, [])
  | (name, t) :: rest, fs => do
    let d := (lookupTD args name).getD (.tbl t.pd)
    let (t', fs, tr) ← DataTable.create fs (newPath ++ [name]) d
    let (ts, fs', tr') ← relocateTables newPath args rest fs
    .ok ((name, t') :: ts, fs', tr ++ tr')

/-- `DataBase.__call__(**tables_and_path)`.  The source line is
`if path := tables_and_path.pop('path', None) is not None:`, and `:=`
binds looser than `is not`, so `path` becomes the *boolean* of the
comparison — when a path was supplied, `super().__call__(True)` runs
`Path(True)`, which raises `TypeError` before any table is touched;
without a path the boolean is falsy and the named tables are rewritten in
place. -/
def DataBase.call (db : DB) (fs : FS) (pathArg : Option FPath)
    (tableArgs : List (String × TData)) :
    Except PyErr (DB × FS × List IOEvent) :=
  match pathArg with
  | some _ =>
    match Store.callArg "" fs db.path (.boolArg true) with
    | .error e => .error e
    | .ok (newPath, fs) => do
      let (ts, fs', tr) ← relocateTables newPath tableArgs db.tables fs
      .ok (⟨newPath, ts⟩, fs', tr)
  | none => updateInPlace tableArgs db fs

/-- `romcomma`'s `tables_as_dict()` method: the tables as keyword data. -/
def DB.tablesAsDict (db : DB) : List (String × TData) :=
  db.tables.map (fun e => (e.1, TData.tbl e.2.pd))

/-- Invoking call parentheses on a plain Python `dict` raises `TypeError`:
a dict is not callable. -/
def callPyDict (_d : List (String × TData)) :
    Except PyErr (List (String × TData)) :=
  .error .typeError

/-- `rc`'s `DataBase.copy(src, dst)`: `tables_as_dict` is declared
`@property` there, so `src.tables_as_dict` already *is* the dictionary and
`src.tables_as_dict()` calls a dict. -/
def DataBase.copyRC (spec : DBSpec) (fs : FS) (src : DB) (dst : FPath) :
    Except (PyErr × List String) (DB × FS × List IOEvent) :=
  match callPyDict src.tablesAsDict with
  | .error e => .error (e, [])
  | .ok args => DataBase.init spec fs dst args

/-- `romcomma`'s `DataBase.copy(src, dst)`: `cls(dst, **src.tables_as_dict())`. -/
def DataBase.copyRom (spec : DBSpec) (fs : FS) (src : DB) (dst : FPath) :
    Except (PyErr × List String) (DB × FS × List IOEvent) :=
  DataBase.init spec fs dst src.tablesAsDict

/-- `DataBase.delete(path)`: `DataTable.delete(path / name)` for every
declared name, touching nothing else. -/
def DataBase.delete (spec : DBSpec) (fs : FS) (path : FPath) : FS :=
  spec.names.foldl (fun fs n => Store.delete ".csv" fs (path ++ [n])) fs

/-! ### Construction lemmas -/

/-! ## Concrete instances (for witnesses and counterexamples)

`toySpec` is a two-table `DataBase` subclass in the shape the source's
template prescribes: tables `A` and `B`, each defaulting to a 1×1 zero
frame, default read options. -/

/-- The 1×1 zero default frame. -/
def df1x1zero : DataFrame := ⟨["0"], [["0"]], [[0]]⟩

/-- A 2×2 frame with values `[[1, 2], [3, 4]]`. -/
def dfA2x2 : DataFrame := ⟨["0", "1"], [["x"], ["y"]], [[1, 2], [3, 4]]⟩

/-- A concrete `DataBase` subclass: tables `A`, `B`, both defaulting to the
1×1 zero. -/
def toySpec : DBSpec :=
  ⟨"ToyDB", ["A", "B"], [("A", df1x1zero), ("B", df1x1zero)], fun _ => 1⟩

/-- The folder the toy database lives in. -/
def dbRoot : FPath := ["tmp", "db"]

/-- A file system holding just the (already created) folders. -/
def fsDirs : FS := [(["tmp"], .dir), (["tmp", "db"], .dir)]

/-- The file system after the toy database was created: both table files
hold the default frame. -/
def toyFS : FS :=
  (fsDirs.set (tableFile dbRoot "A") (.file (.csv (toCsv df1x1zero)))).set
    (tableFile dbRoot "B") (.file (.csv (toCsv df1x1zero)))

/-- The in-memory toy database matching `toyFS`. -/
def toyDB : DB :=
  ⟨dbRoot, [("A", ⟨tableFile dbRoot "A", df1x1zero⟩),
            ("B", ⟨tableFile dbRoot "B", df1x1zero⟩)]⟩

/-! ## The claims -/

/-- A toy file system holding the database plus an extraneous file
`C.txt` inside the database folder. -/
def fsExtra : FS :=
  toyFS.set (dbRoot ++ ["C.txt"]) (.file (.json [("note", "extraneous")]))

/-! ### numpy facts for `broadcast_to` -/

/-- A concrete 1×1 `DataTable` storing the value 5. -/
def t1x1 : DataTable := ⟨dbRoot ++ ["T.csv"], ⟨["0"], [["c"]], [[5]]⟩⟩

/-- A concrete square 2×2 `DataTable`. -/
def t2x2 : DataTable := ⟨dbRoot ++ ["S.csv"], dfA2x2⟩

/-- A 1×2 frame with two-level (hierarchical) column headers. -/
def pdH : DataFrame := ⟨["r0"], [["Output", "0"], ["Output", "1"]], [[7, 8]]⟩

/-! ## Theorems -/

theorem getD_map_of_lt {α β : Type} (f : α → β) (d : β) (d' : α) :
    ∀ (l : List α) (j : Nat), j < l.length → (l.map f).getD j d = f (l.getD j d')
  | a :: l, 0, _ => by simp
  | a :: l, j + 1, h => by
    simp only [List.map_cons, List.getD_cons_succ]
    exact getD_map_of_lt f d d' l j (by simpa using h)

theorem range_map_getD {α : Type} (d : α) :
    ∀ c : List α, (List.range c.length).map (fun L => c.getD L d) = c
  | [] => rfl
  | a :: c => by
    rw [List.length_cons, List.range_succ_eq_map, List.map_cons, List.map_map]
    simp only [List.getD_cons_zero, Function.comp]
    rw [List.cons_inj_right]
    exact range_map_getD d c

theorem zip_index_round :
    ∀ (xs : List String) (ys : List (List Val)), xs.length = ys.length →
      (List.zipWith (fun i r => CsvCell.str i :: r.map CsvCell.num) xs ys).map
        (fun row => cellStr (row.getD 0 (.str ""))) = xs
  | [], [], _ => rfl
  | [], _ :: _, h => by simp at h
  | _ :: _, [], h => by simp at h
  | x :: xs, y :: ys, h => by
    simp only [List.zipWith_cons_cons, List.map_cons, List.getD_cons_zero, cellStr,
      List.cons_inj_right]
    exact zip_index_round xs ys (by simpa using h)

theorem map_num_mapM : ∀ r : List Val, (r.map CsvCell.num).mapM cellNum = Except.ok r
  | [] => rfl
  | v :: r => by
    simp only [List.map_cons, List.mapM_cons, map_num_mapM r, cellNum]
    rfl

theorem zip_values_round :
    ∀ (xs : List String) (ys : List (List Val)), xs.length = ys.length →
      (List.zipWith (fun i r => CsvCell.str i :: r.map CsvCell.num) xs ys).mapM
        (fun row => (row.drop 1).mapM cellNum) = Except.ok ys
  | [], [], _ => rfl
  | [], _ :: _, h => by simp at h
  | _ :: _, [], h => by simp at h
  | x :: xs, y :: ys, h => by
    simp only [List.zipWith_cons_cons, List.mapM_cons, List.drop_succ_cons, List.drop_zero,
      map_num_mapM y, zip_values_round xs ys (by simpa using h)]
    rfl

/-- The CSV round trip at the heart of the spec's round-trip property:
a well-formed frame written by `to_csv` (header and index included) and
read back with the matching header-level count is recovered exactly. -/
theorem readCsv_toCsv (df : DataFrame) (h : df.wfb = true) :
    readCsvFile (toCsv df) df.headerLevels = .ok df := by
  unfold DataFrame.wfb at h
  simp only [Bool.and_eq_true, List.all_eq_true, decide_eq_true_eq] at h
  obtain ⟨⟨⟨⟨hlen, hrect⟩, hcols⟩, hpos⟩, hwide⟩ := h
  obtain ⟨k, hk⟩ : ∃ k, df.headerLevels = k + 1 := ⟨df.headerLevels - 1, by omega⟩
  have hH : ((List.range df.headerLevels).map (fun L =>
      CsvCell.str "" :: df.columns.map (fun c => CsvCell.str (c.getD L "")))).length
        = df.headerLevels := by simp
  have hind : df.index.length = df.values.length := hlen.symm
  have hhead : ((List.range df.headerLevels).map (fun L =>
        CsvCell.str "" :: df.columns.map (fun c => CsvCell.str (c.getD L "")))
      ++ List.zipWith (fun i r => CsvCell.str i :: r.map CsvCell.num) df.index df.values).head?
      = some (CsvCell.str "" :: df.columns.map (fun c => CsvCell.str (c.getD 0 ""))) := by
    rw [hk, List.range_succ_eq_map, List.map_cons]
    rfl
  have hcolsEq : (List.range df.columns.length).map (fun j =>
      ((List.range df.headerLevels).map (fun L =>
        CsvCell.str "" :: df.columns.map (fun c => CsvCell.str (c.getD L "")))).map
          (fun row => cellStr (row.getD (j + 1) (CsvCell.str ""))))
      = df.columns := by
    have step : ∀ j ∈ List.range df.columns.length,
        ((List.range df.headerLevels).map (fun L =>
          CsvCell.str "" :: df.columns.map (fun c => CsvCell.str (c.getD L "")))).map
            (fun row => cellStr (row.getD (j + 1) (CsvCell.str "")))
          = df.columns.getD j [] := by
      intro j hj
      rw [List.mem_range] at hj
      rw [List.map_map]
      have inner : ((fun row => cellStr (row.getD (j + 1) (CsvCell.str ""))) ∘
          (fun L => CsvCell.str "" :: df.columns.map (fun c => CsvCell.str (c.getD L ""))))
          = fun L => (df.columns.getD j []).getD L "" := by
        funext L
        simp only [Function.comp, List.getD_cons_succ]
        rw [getD_map_of_lt (fun c => CsvCell.str (c.getD L "")) (CsvCell.str "") [] _ j hj]
        rfl
      rw [inner]
      have hlenj : (df.columns.getD j []).length = df.headerLevels := by
        rw [List.getD_eq_getElem df.columns [] hj]
        exact hcols _ (List.getElem_mem hj)
      rw [← hlenj]
      exact range_map_getD "" _
    calc (List.range df.columns.length).map (fun j =>
          ((List.range df.headerLevels).map (fun L =>
            CsvCell.str "" :: df.columns.map (fun c => CsvCell.str (c.getD L "")))).map
              (fun row => cellStr (row.getD (j + 1) (CsvCell.str ""))))
        = (List.range df.columns.length).map (fun j => df.columns.getD j []) :=
          List.map_congr_left step
      _ = df.columns := range_map_getD [] df.columns
  unfold readCsvFile toCsv
  simp only
  rw [if_neg (by omega : ¬ df.headerLevels = 0)]
  rw [List.take_left' hH, List.drop_left' hH]
  rw [zip_values_round df.index df.values hind]
  simp only [hhead, Option.map_some', Option.getD_some, List.length_cons, List.length_map,
    Nat.add_sub_cancel]
  rw [zip_index_round df.index df.values hind]
  rw [hcolsEq]

theorem mkdirOne_of_dir {fs : FS} {p : FPath} (h : fs.get p = some .dir) :
    mkdirOne fs p = .ok fs := by
  simp [mkdirOne, h]

theorem foldlM_mkdir_inert {fs : FS} {p : FPath} :
    ∀ l : List Nat, (∀ i ∈ l, fs.get (p.take (i + 1)) = some Node.dir) →
      l.foldlM (fun fs i => mkdirOne fs (p.take (i + 1))) fs = .ok fs := by
  intro l
  induction l with
  | nil => intro _; rfl
  | cons a t ih =>
    intro h
    have ha := h a (List.mem_cons_self a t)
    rw [List.foldlM_cons, mkdirOne_of_dir ha]
    exact ih (fun i hi => h i (List.mem_cons_of_mem a hi))

theorem mkdirParents_of_ready {fs : FS} {p : FPath} (h : dirsReady fs p = true) :
    mkdirParents fs p = .ok fs := by
  unfold dirsReady at h
  simp only [List.all_eq_true, decide_eq_true_eq] at h
  exact foldlM_mkdir_inert _ (fun i hi => h i hi)

theorem find_filter_out (p : FPath) :
    ∀ fs : FS, (fs.filter (fun e => ¬ e.1 = p)).find? (fun e => e.1 = p) = none
  | [] => rfl
  | e :: t => by
    by_cases hep : e.1 = p
    · rw [List.filter_cons_of_neg (by simpa using hep)]
      exact find_filter_out p t
    · rw [List.filter_cons_of_pos (by simpa using hep),
        List.find?_cons_of_neg _ (by simpa using hep)]
      exact find_filter_out p t

theorem find_filter_keep {p q : FPath} (h : ¬ q = p) :
    ∀ fs : FS, (fs.filter (fun e => ¬ e.1 = p)).find? (fun e => e.1 = q)
      = fs.find? (fun e => e.1 = q)
  | [] => rfl
  | e :: t => by
    by_cases hep : e.1 = p
    · rw [List.filter_cons_of_neg (by simpa using hep)]
      rw [List.find?_cons_of_neg _ (by
        simp only [hep, decide_eq_true_eq]
        exact fun hpq => h hpq.symm)]
      exact find_filter_keep h t
    · rw [List.filter_cons_of_pos (by simpa using hep)]
      by_cases heq : e.1 = q
      · rw [List.find?_cons_of_pos _ (by simpa using heq),
          List.find?_cons_of_pos _ (by simpa using heq)]
      · rw [List.find?_cons_of_neg _ (by simpa using heq),
          List.find?_cons_of_neg _ (by simpa using heq)]
        exact find_filter_keep h t

theorem FS.get_set_self (fs : FS) (p : FPath) (n : Node) :
    (fs.set p n).get p = some n := by
  unfold FS.get FS.set
  rw [List.find?_cons_of_pos _ (by simp)]
  rfl

theorem FS.get_set_ne (fs : FS) (p q : FPath) (n : Node) (h : ¬ q = p) :
    (fs.set p n).get q = fs.get q := by
  unfold FS.get FS.set
  rw [List.find?_cons_of_neg _ (by
    simp only [decide_eq_true_eq]
    exact fun hpq => h hpq.symm), find_filter_keep h]

theorem FS.get_remove_self (fs : FS) (p : FPath) :
    (fs.remove p).get p = none := by
  unfold FS.get FS.remove
  rw [find_filter_out]
  rfl

theorem FS.get_remove_ne (fs : FS) (p q : FPath) (h : ¬ q = p) :
    (fs.remove p).get q = fs.get q := by
  unfold FS.get FS.remove
  rw [find_filter_keep h]

theorem dirsReady_set (fs : FS) (p q : FPath) (n : Node)
    (h : dirsReady fs p = true) (hq : p.length < q.length) :
    dirsReady (fs.set q n) p = true := by
  unfold dirsReady at h ⊢
  simp only [List.all_eq_true, decide_eq_true_eq] at h ⊢
  intro i hi
  rw [FS.get_set_ne]
  · exact h i hi
  · intro heq
    have hle : (p.take (i + 1)).length ≤ p.length := by
      simp [List.length_take]
    rw [heq] at hle
    omega

theorem ok_bind {α β : Type} (a : α) (k : α → Except PyErr β) :
    (Except.ok a >>= k) = k a := rfl

theorem tableFile_eq (path : FPath) (n : String) :
    tableFile path n = path ++ [withExt n ".csv"] := by
  unfold tableFile withSuffix
  rw [if_neg (by simp)]
  rw [List.dropLast_concat, List.getLastD_concat]

theorem tableFile_length (path : FPath) (n : String) :
    (tableFile path n).length = path.length + 1 := by
  rw [tableFile_eq]
  simp

theorem tableFile_dropLast (path : FPath) (n : String) :
    (tableFile path n).dropLast = path := by
  rw [tableFile_eq, List.dropLast_concat]

/-- Constructing a `DataTable` from a ready `DataFrame` (supplied directly
or inside a `DataTable`): no read happens, the frame is adopted and written
once. -/
theorem DataTable.init_write (fs : FS) (path : FPath) (n : String)
    (d : TData) (x : DataFrame) (hd : d = .df x ∨ d = .tbl x)
    (hready : dirsReady fs path = true) :
    DataTable.init fs (path ++ [n]) (some d) 1
      = .ok (⟨tableFile path n, x⟩,
             fs.set (tableFile path n) (.file (.csv (toCsv x))),
             [.writeF (tableFile path n)]) := by
  have hmk : mkdirParents fs (withSuffix (path ++ [n]) ".csv").dropLast = .ok fs := by
    rw [show withSuffix (path ++ [n]) ".csv" = tableFile path n from rfl,
      tableFile_dropLast]
    exact mkdirParents_of_ready hready
  cases hd with
  | inl h =>
    subst h
    unfold DataTable.init
    rw [hmk]
    rfl
  | inr h =>
    subst h
    unfold DataTable.init
    rw [hmk]
    rfl

/-- Constructing a `DataTable` with no data: its file is read once (and
immediately re-written by the `self(...)` call). -/
theorem DataTable.init_read (fs : FS) (path : FPath) (n : String)
    (f : CsvFile) (df : DataFrame) (rh : Nat)
    (hready : dirsReady fs path = true)
    (hget : fs.get (tableFile path n) = some (.file (.csv f)))
    (hread : readCsvFile f rh = .ok df) :
    DataTable.init fs (path ++ [n]) none rh
      = .ok (⟨tableFile path n, df⟩,
             fs.set (tableFile path n) (.file (.csv (toCsv df))),
             [.readF (tableFile path n), .writeF (tableFile path n)]) := by
  have hmk : mkdirParents fs (withSuffix (path ++ [n]) ".csv").dropLast = .ok fs := by
    rw [show withSuffix (path ++ [n]) ".csv" = tableFile path n from rfl,
      tableFile_dropLast]
    exact mkdirParents_of_ready hready
  unfold DataTable.init
  rw [hmk, ok_bind]
  rw [show (withSuffix (path ++ [n]) ".csv" : FPath) = tableFile path n from rfl]
  rw [hget]
  simp only [hread]
  rfl

/-- Constructing a `DataTable` with no data when its file is absent:
`pd.read_csv` raises `FileNotFoundError` carrying the missing file. -/
theorem DataTable.init_missing (fs : FS) (path : FPath) (n : String) (rh : Nat)
    (hready : dirsReady fs path = true)
    (hget : fs.get (tableFile path n) = none) :
    DataTable.init fs (path ++ [n]) none rh
      = .error (.fileNotFound (tableFile path n)) := by
  have hmk : mkdirParents fs (withSuffix (path ++ [n]) ".csv").dropLast = .ok fs := by
    rw [show withSuffix (path ++ [n]) ".csv" = tableFile path n from rfl,
      tableFile_dropLast]
    exact mkdirParents_of_ready hready
  unfold DataTable.init
  rw [hmk, ok_bind]
  rw [show (withSuffix (path ++ [n]) ".csv" : FPath) = tableFile path n from rfl]
  rw [hget]
  rfl

/-- `DataBase.__init__` with every declared table supplied as a ready frame
(directly or inside a `DataTable`): no file is read, each table adopts its
supplied frame verbatim, and each table file is written exactly once. -/
theorem initTables_supplied (path : FPath) (args : List (String × TData))
    (rh : String → Nat) (dfn : String → DataFrame) :
    ∀ (names : List String) (fs : FS), dirsReady fs path = true →
      (∀ n ∈ names, lookupTD args n = some (.df (dfn n)) ∨
        lookupTD args n = some (.tbl (dfn n))) →
      initTables path args rh names fs
        = .ok (names.map (fun n => (n, (⟨tableFile path n, dfn n⟩ : DataTable))),
               names.foldl (fun fs n =>
                 fs.set (tableFile path n) (.file (.csv (toCsv (dfn n))))) fs,
               names.map (fun n => IOEvent.writeF (tableFile path n))) := by
  intro names
  induction names with
  | nil => intro fs _ _; rfl
  | cons n rest ih =>
    intro fs hready hsup
    have hone : initOne path args rh n fs
        = .ok (⟨tableFile path n, dfn n⟩,
               fs.set (tableFile path n) (.file (.csv (toCsv (dfn n)))),
               [.writeF (tableFile path n)]) := by
      unfold initOne
      cases hsup n (List.mem_cons_self n rest) with
      | inl h => rw [h]; exact DataTable.init_write fs path n _ (dfn n) (Or.inl rfl) hready
      | inr h => rw [h]; exact DataTable.init_write fs path n _ (dfn n) (Or.inr rfl) hready
    unfold initTables
    rw [hone, ok_bind]
    simp only [ih _ (dirsReady_set fs path (tableFile path n)
          (Node.file (File.csv (toCsv (dfn n)))) hready
          (by rw [tableFile_length]; omega))
        (fun m hm => hsup m (List.mem_cons_of_mem n hm))]
    rfl

/-- `DataBase.__init__` with no table supplied: each declared table is read
from its file exactly once (and re-written), in declaration order. -/
theorem initTables_readAll (path : FPath) (rh : String → Nat)
    (fn : String → CsvFile) (dfn : String → DataFrame) :
    ∀ (names : List String) (fs : FS), dirsReady fs path = true →
      List.Pairwise (fun m n => tableFile path m ≠ tableFile path n) names →
      (∀ n ∈ names, fs.get (tableFile path n) = some (.file (.csv (fn n)))) →
      (∀ n ∈ names, readCsvFile (fn n) (rh n) = .ok (dfn n)) →
      initTables path [] rh names fs
        = .ok (names.map (fun n => (n, (⟨tableFile path n, dfn n⟩ : DataTable))),
               names.foldl (fun fs n =>
                 fs.set (tableFile path n) (.file (.csv (toCsv (dfn n))))) fs,
               names.flatMap (fun n =>
                 [IOEvent.readF (tableFile path n), IOEvent.writeF (tableFile path n)])) := by
  intro names
  induction names with
  | nil => intro fs _ _ _ _; rfl
  | cons n rest ih =>
    intro fs hready hpw hget hread
    have hone : initOne path [] rh n fs
        = .ok (⟨tableFile path n, dfn n⟩,
               fs.set (tableFile path n) (.file (.csv (toCsv (dfn n)))),
               [.readF (tableFile path n), .writeF (tableFile path n)]) := by
      unfold initOne
      exact DataTable.init_read fs path n (fn n) (dfn n) (rh n) hready
        (hget n (List.mem_cons_self n rest)) (hread n (List.mem_cons_self n rest))
    unfold initTables
    rw [hone, ok_bind]
    have hpw' := List.pairwise_cons.mp hpw
    simp only [ih _ (dirsReady_set fs path (tableFile path n)
          (Node.file (File.csv (toCsv (dfn n)))) hready
          (by rw [tableFile_length]; omega))
        hpw'.2
        (fun m hm => by
          rw [FS.get_set_ne _ _ _ _ (fun heq => hpw'.1 m hm heq.symm)]
          exact hget m (List.mem_cons_of_mem n hm))
        (fun m hm => hread m (List.mem_cons_of_mem n hm))]
    rfl

/-- `DataBase.__init__` when an *unsupplied* table's file is missing: the
whole construction aborts with `FileNotFoundError` for that file (tables
declared earlier, all supplied, were already written). -/
theorem initTables_missing (path : FPath) (args : List (String × TData))
    (rh : String → Nat) (dfn : String → DataFrame) (n : String) :
    ∀ (pre : List String) (post : List String) (fs : FS),
      dirsReady fs path = true →
      (∀ m ∈ pre, lookupTD args m = some (.df (dfn m)) ∨
        lookupTD args m = some (.tbl (dfn m))) →
      lookupTD args n = none →
      fs.get (tableFile path n) = none →
      (∀ m ∈ pre, tableFile path m ≠ tableFile path n) →
      initTables path args rh (pre ++ n :: post) fs
        = .error (.fileNotFound (tableFile path n)) := by
  intro pre
  induction pre with
  | nil =>
    intro post fs hready _ hn hmiss _
    have hone : initOne path args rh n fs
        = .error (.fileNotFound (tableFile path n)) := by
      unfold initOne
      rw [hn]
      exact DataTable.init_missing fs path n (rh n) hready hmiss
    rw [List.nil_append]
    unfold initTables
    rw [hone]
    rfl
  | cons m rest ih =>
    intro post fs hready hsup hn hmiss hne
    have hone : initOne path args rh m fs
        = .ok (⟨tableFile path m, dfn m⟩,
               fs.set (tableFile path m) (.file (.csv (toCsv (dfn m)))),
               [.writeF (tableFile path m)]) := by
      unfold initOne
      cases hsup m (List.mem_cons_self m rest) with
      | inl h => rw [h]; exact DataTable.init_write fs path m _ (dfn m) (Or.inl rfl) hready
      | inr h => rw [h]; exact DataTable.init_write fs path m _ (dfn m) (Or.inr rfl) hready
    rw [List.cons_append]
    unfold initTables
    rw [hone, ok_bind]
    simp only [ih post _ (dirsReady_set fs path (tableFile path m)
          (Node.file (File.csv (toCsv (dfn m)))) hready
          (by rw [tableFile_length]; omega))
        (fun a ha => hsup a (List.mem_cons_of_mem m ha))
        hn
        (by
          rw [FS.get_set_ne _ _ _ _ (fun heq =>
            hne m (List.mem_cons_self m rest) heq.symm)]
          exact hmiss)
        (fun a ha => hne a (List.mem_cons_of_mem m ha))]
    rfl

/-- C1: the spec says `DataBase.__call__` with a new `path` recreates every
table at the new location, and with only table-name keywords rewrites
exactly the named tables in place.  The in-place half holds, but the
relocation half never executes: `path := tables_and_path.pop('path', None)
is not None` binds `path` to the *boolean* of the comparison, so a supplied
path sends `True` into `Store.__call__`, where `Path(True)` raises
`TypeError` — for every database, file system and argument list.  The
second conjunct checks the in-place half on the toy database: table `A` is
rewritten on disk, table `B`'s file is untouched. -/
theorem C1_update_and_store_walrus :
    (∀ (db : DB) (fs : FS) (p : FPath) (args : List (String × TData)),
      DataBase.call db fs (some p) args = .error .typeError) ∧
    (DataBase.call toyDB toyFS none [("A", TData.df dfA2x2)]).toOption.map
        (fun r => (r.2.1.get (tableFile dbRoot "A"), r.2.1.get (tableFile dbRoot "B")))
      = some (some (.file (.csv (toCsv dfA2x2))), toyFS.get (tableFile dbRoot "B")) := by
  constructor
  · intro db fs p args
    rfl
  · decide

/-- C2 (counterexample): the claim says constructing with every table
supplied performs *no disk I/O at all* for those tables.  In fact each
supplied table is written once: the construction's trace holds zero reads
but one write per declared table — a nonempty write list refutes the
no-I/O clause. -/
theorem C2_all_supplied_still_writes :
    (DataBase.init toySpec fsDirs dbRoot
        [("A", TData.df df1x1zero), ("B", TData.df df1x1zero)]).toOption.map
        (fun r => (r.2.2.filter IOEvent.isRead, r.2.2.filter IOEvent.isWrite))
      = some ([], [.writeF (tableFile dbRoot "A"), .writeF (tableFile dbRoot "B")]) ∧
    ([IOEvent.writeF (tableFile dbRoot "A"), IOEvent.writeF (tableFile dbRoot "B")] : List IOEvent)
      ≠ [] := by
  constructor
  · decide
  · decide

/-- C3: the spec's scenario `create(path, A=[[1,2],[3,4]])` crashes: a bare
matrix override reaches `DataTable.__call__`'s `self._pd.iloc[:, :] = data`
before any `_pd` attribute exists, raising `AttributeError` (no diagnostic
is printed: only `FileNotFoundError` is caught).  Supplying the same values
as a `DataFrame` behaves exactly as the claim describes: the create seeds
`table_defaults() | tables`, writes every table, and reading the database
back yields `A == [[1,2],[3,4]]` and `B` equal to its declared default. -/
theorem C3_create_matrix_override_crashes :
    DataBase.create toySpec fsDirs dbRoot [("A", TData.mat [[1, 2], [3, 4]])]
      = .error (.attributeError, []) ∧
    (DataBase.create toySpec fsDirs dbRoot [("A", TData.df dfA2x2)]).toOption.bind
        (fun r => (DataBase.init toySpec r.2.1 dbRoot []).toOption.map
          (fun r' => r'.1.tables.map (fun e => (e.1, e.2.pd))))
      = some [("A", dfA2x2), ("B", df1x1zero)] := by
  constructor
  · decide
  · decide

/-- C5: `rc`'s `DataBase.copy` calls `src.tables_as_dict()` although
`tables_as_dict` is declared `@property` there, so the call invokes a plain
`dict` and raises `TypeError` on every source database; `romcomma`'s
`copy` (where `tables_as_dict` is a method) works and coincides with
`create(dst, **src.tables_as_dict())`, copying every table of the source.
The two implementations therefore do not behave identically. -/
theorem C5_copy_rc_vs_rom :
    DataBase.copyRC toySpec toyFS toyDB ["tmp", "db2"] = .error (.typeError, []) ∧
    (DataBase.copyRom toySpec toyFS toyDB ["tmp", "db2"]).toOption.map
        (fun r => r.1.tables.map (fun e => (e.1, e.2.pd)))
      = some [("A", df1x1zero), ("B", df1x1zero)] ∧
    DataBase.copyRom toySpec toyFS toyDB ["tmp", "db2"]
      = DataBase.create toySpec toyFS ["tmp", "db2"] toyDB.tablesAsDict := by
  refine ⟨rfl, by decide, by decide⟩

/-- C4: writing a `DataTable` (header and index written, the repository's
write options) and reading it back from the same path with the matching
header-level count recovers the *same* frame — same cell values (exactly,
the model's rendition of "within floating tolerance") and the same column
structure, since the recovered `DataFrame` is equal as a whole. -/
theorem C4_round_trip (df : DataFrame) (fs : FS) (path : FPath) (n : String)
    (hwf : df.wfb = true) (hready : dirsReady fs path = true) :
    DataTable.init fs (path ++ [n]) (some (TData.df df)) 1
      = .ok (⟨tableFile path n, df⟩,
             fs.set (tableFile path n) (.file (.csv (toCsv df))),
             [.writeF (tableFile path n)]) ∧
    DataTable.init (fs.set (tableFile path n) (.file (.csv (toCsv df))))
        (path ++ [n]) none df.headerLevels
      = .ok (⟨tableFile path n, df⟩,
             (fs.set (tableFile path n) (.file (.csv (toCsv df)))).set
               (tableFile path n) (.file (.csv (toCsv df))),
             [.readF (tableFile path n), .writeF (tableFile path n)]) := by
  constructor
  · exact DataTable.init_write fs path n _ df (Or.inl rfl) hready
  · exact DataTable.init_read _ path n (toCsv df) df df.headerLevels
      (dirsReady_set fs path (tableFile path n) _ hready
        (by rw [tableFile_length]; omega))
      (FS.get_set_self fs (tableFile path n) _)
      (readCsv_toCsv df hwf)

/-- C4 witness: the round trip at the concrete 2×2 frame. -/
theorem C4_round_trip_witness :
    DataTable.init fsDirs (dbRoot ++ ["A"]) (some (TData.df dfA2x2)) 1
      = .ok (⟨tableFile dbRoot "A", dfA2x2⟩,
             fsDirs.set (tableFile dbRoot "A") (.file (.csv (toCsv dfA2x2))),
             [.writeF (tableFile dbRoot "A")]) ∧
    DataTable.init (fsDirs.set (tableFile dbRoot "A") (.file (.csv (toCsv dfA2x2))))
        (dbRoot ++ ["A"]) none dfA2x2.headerLevels
      = .ok (⟨tableFile dbRoot "A", dfA2x2⟩,
             (fsDirs.set (tableFile dbRoot "A") (.file (.csv (toCsv dfA2x2)))).set
               (tableFile dbRoot "A") (.file (.csv (toCsv dfA2x2))),
             [.readF (tableFile dbRoot "A"), .writeF (tableFile dbRoot "A")]) :=
  C4_round_trip dfA2x2 fsDirs dbRoot "A" (by decide) (by decide)

/-- What `DataBase.delete` does to every path: a declared table file is
gone, anything else is untouched (given no declared table path is a
directory). -/
theorem delete_foldl_get (path : FPath) :
    ∀ (names : List String) (fs : FS),
      (∀ n ∈ names, fs.get (tableFile path n) ≠ some Node.dir) →
      ∀ q : FPath,
        (names.foldl (fun fs n => Store.delete ".csv" fs (path ++ [n])) fs).get q
          = if names.any (fun n => tableFile path n = q) then none else fs.get q := by
  intro names
  induction names with
  | nil => intro fs _ q; simp
  | cons n rest ih =>
    intro fs hnd q
    have hstep : ∀ q' : FPath, (Store.delete ".csv" fs (path ++ [n])).get q'
        = if tableFile path n = q' then none else fs.get q' := by
      intro q'
      unfold Store.delete
      rw [show withSuffix (path ++ [n]) ".csv" = tableFile path n from rfl]
      cases hg : fs.get (tableFile path n) with
      | none =>
        by_cases hq : tableFile path n = q'
        · subst hq; simp [hg]
        · simp [hq]
      | some node =>
        cases node with
        | dir => exact absurd hg (hnd n (List.mem_cons_self n rest))
        | file f =>
          by_cases hq : tableFile path n = q'
          · subst hq
            simp only [if_pos rfl]
            exact FS.get_remove_self fs _
          · rw [if_neg hq]
            exact FS.get_remove_ne fs _ _ (fun h => hq h.symm)
    rw [List.foldl_cons]
    rw [ih (Store.delete ".csv" fs (path ++ [n])) (fun m hm => by
      rw [hstep (tableFile path m)]
      by_cases h : tableFile path n = tableFile path m
      · simp [h]
      · rw [if_neg h]; exact hnd m (List.mem_cons_of_mem n hm)) q]
    rw [hstep q]
    simp only [List.any_cons]
    by_cases hq : tableFile path n = q <;>
      by_cases hr : rest.any (fun m => tableFile path m = q) = true <;>
      simp [hq, hr]

/-- C6: `DataBase.delete(path)` removes exactly the declared table files
`<path>/<name>.csv`: each of them is gone afterwards, every other path is
untouched, and the folder itself still exists — unlike `Store.delete`, it
never removes the folder. -/
theorem C6_delete_frame (spec : DBSpec) (fs : FS) (path : FPath)
    (hnd : ∀ n ∈ spec.names, fs.get (tableFile path n) ≠ some Node.dir) :
    (∀ n ∈ spec.names, (DataBase.delete spec fs path).get (tableFile path n) = none) ∧
    (∀ q : FPath, (∀ n ∈ spec.names, q ≠ tableFile path n) →
      (DataBase.delete spec fs path).get q = fs.get q) ∧
    (fs.get path = some Node.dir →
      (DataBase.delete spec fs path).get path = some Node.dir) := by
  have hmain := delete_foldl_get path spec.names fs hnd
  have hframe : ∀ q : FPath, (∀ n ∈ spec.names, q ≠ tableFile path n) →
      (DataBase.delete spec fs path).get q = fs.get q := by
    intro q hq
    rw [show DataBase.delete spec fs path
        = spec.names.foldl (fun fs n => Store.delete ".csv" fs (path ++ [n])) fs from rfl,
      hmain q, if_neg]
    intro hany
    obtain ⟨m, hm, heq⟩ := List.any_eq_true.mp hany
    exact hq m hm (by simpa using heq : tableFile path m = q).symm
  refine ⟨?_, hframe, ?_⟩
  · intro n hn
    rw [show DataBase.delete spec fs path
        = spec.names.foldl (fun fs n => Store.delete ".csv" fs (path ++ [n])) fs from rfl,
      hmain (tableFile path n), if_pos]
    exact List.any_eq_true.mpr ⟨n, hn, by simp⟩
  · intro hdir
    rw [hframe path (fun n _ heq => by
      have := tableFile_length path n
      rw [← heq] at this
      omega)]
    exact hdir

/-- C7: when construction must read a declared table that was not supplied
and its file is absent, the whole construction aborts with a
`FileNotFoundError` carrying that table's file path (so the error names the
failing table: the path ends in `<name>.csv`), and the printed diagnostic
suggests the corresponding `create(...)` call in place of the load. -/
theorem C7_missing_read_aborts (spec : DBSpec) (fs : FS) (path : FPath)
    (args : List (String × TData)) (dfn : String → DataFrame)
    (pre post : List String) (n : String)
    (hnames : spec.names = pre ++ n :: post)
    (hready : dirsReady fs path = true)
    (hsup : ∀ m ∈ pre, lookupTD args m = some (.df (dfn m)) ∨
      lookupTD args m = some (.tbl (dfn m)))
    (hn : lookupTD args n = none)
    (hmiss : fs.get (tableFile path n) = none)
    (hne : ∀ m ∈ pre, tableFile path m ≠ tableFile path n) :
    DataBase.init spec fs path args
      = .error (.fileNotFound (tableFile path n),
                dbReadDiag spec.clsName (path.getLastD "")) ∧
    (tableFile path n).getLastD "" = withExt n ".csv" ∧
    ".create(\"" ∈ dbReadDiag spec.clsName (path.getLastD "") := by
  refine ⟨?_, ?_, ?_⟩
  · unfold DataBase.init
    simp only [mkdirParents_of_ready hready, hnames,
      initTables_missing path args spec.readHeader dfn n pre post fs hready hsup hn
        hmiss hne]
  · rw [tableFile_eq]
    exact List.getLastD_concat _ _ _
  · simp [dbReadDiag]

/-- C6 witness: on the toy database, deleting removes `A.csv`, keeps the
extraneous `C.txt` and keeps the folder. -/
theorem C6_delete_frame_witness :
    (DataBase.delete toySpec fsExtra dbRoot).get (tableFile dbRoot "A") = none ∧
    (DataBase.delete toySpec fsExtra dbRoot).get (dbRoot ++ ["C.txt"])
      = fsExtra.get (dbRoot ++ ["C.txt"]) ∧
    (DataBase.delete toySpec fsExtra dbRoot).get dbRoot = some Node.dir :=
  ⟨(C6_delete_frame toySpec fsExtra dbRoot (by decide)).1 "A" (by decide),
   (C6_delete_frame toySpec fsExtra dbRoot (by decide)).2.1 (dbRoot ++ ["C.txt"]) (by decide),
   (C6_delete_frame toySpec fsExtra dbRoot (by decide)).2.2 (by decide)⟩

/-- C7 witness: constructing the toy database with `A` supplied and `B`'s
file absent aborts with `FileNotFoundError` for `tmp/db/B.csv` and the
create-suggesting diagnostic. -/
theorem C7_missing_read_aborts_witness :
    DataBase.init toySpec fsDirs dbRoot [("A", TData.df df1x1zero)]
      = .error (.fileNotFound (tableFile dbRoot "B"),
                dbReadDiag toySpec.clsName (dbRoot.getLastD "")) ∧
    (tableFile dbRoot "B").getLastD "" = withExt "B" ".csv" ∧
    ".create(\"" ∈ dbReadDiag toySpec.clsName (dbRoot.getLastD "") :=
  C7_missing_read_aborts toySpec fsDirs dbRoot [("A", TData.df df1x1zero)]
    (fun _ => df1x1zero) ["A"] [] "B" (by decide) (by decide) (by decide) (by decide)
    (by decide) (by decide)

/-- C2 (amended): constructing with every declared table supplied performs
zero disk reads and adopts each supplied frame verbatim, but it is not
I/O-free: each supplied table is written to disk once.  Constructing with
no table supplied performs exactly one file read per declared table name
(each immediately followed by a rewrite of the same file). -/
theorem C2_lazy_read_amended (spec : DBSpec) (path : FPath) :
    (∀ (fs : FS) (args : List (String × TData)) (dfn : String → DataFrame),
      dirsReady fs path = true →
      (∀ n ∈ spec.names, lookupTD args n = some (.df (dfn n)) ∨
        lookupTD args n = some (.tbl (dfn n))) →
      DataBase.init spec fs path args
        = .ok (⟨path, spec.names.map (fun n => (n, ⟨tableFile path n, dfn n⟩))⟩,
               spec.names.foldl (fun fs n =>
                 fs.set (tableFile path n) (.file (.csv (toCsv (dfn n))))) fs,
               spec.names.map (fun n => IOEvent.writeF (tableFile path n)))) ∧
    (∀ (fs : FS) (fn : String → CsvFile) (dfn : String → DataFrame),
      dirsReady fs path = true →
      List.Pairwise (fun m n => tableFile path m ≠ tableFile path n) spec.names →
      (∀ n ∈ spec.names, fs.get (tableFile path n) = some (.file (.csv (fn n)))) →
      (∀ n ∈ spec.names, readCsvFile (fn n) (spec.readHeader n) = .ok (dfn n)) →
      DataBase.init spec fs path []
        = .ok (⟨path, spec.names.map (fun n => (n, ⟨tableFile path n, dfn n⟩))⟩,
               spec.names.foldl (fun fs n =>
                 fs.set (tableFile path n) (.file (.csv (toCsv (dfn n))))) fs,
               spec.names.flatMap (fun n =>
                 [IOEvent.readF (tableFile path n), IOEvent.writeF (tableFile path n)]))) := by
  constructor
  · intro fs args dfn hready hsup
    unfold DataBase.init
    simp only [mkdirParents_of_ready hready,
      initTables_supplied path args spec.readHeader dfn spec.names fs hready hsup]
  · intro fs fn dfn hready hpw hget hread
    unfold DataBase.init
    simp only [mkdirParents_of_ready hready,
      initTables_readAll path spec.readHeader fn dfn spec.names fs hready hpw hget hread]

/-- C2 witness: the amended statement at the toy database — all-supplied
construction (a write-only trace) and no-supplied construction (a
read-then-rewrite trace per table). -/
theorem C2_lazy_read_amended_witness :
    DataBase.init toySpec fsDirs dbRoot [("A", TData.df dfA2x2), ("B", TData.tbl df1x1zero)]
      = .ok (⟨dbRoot, toySpec.names.map (fun n =>
               (n, ⟨tableFile dbRoot n,
                    (fun n => if n = "A" then dfA2x2 else df1x1zero) n⟩))⟩,
             toySpec.names.foldl (fun fs n =>
               fs.set (tableFile dbRoot n)
                 (.file (.csv (toCsv ((fun n => if n = "A" then dfA2x2 else df1x1zero) n))))) fsDirs,
             toySpec.names.map (fun n => IOEvent.writeF (tableFile dbRoot n))) ∧
    DataBase.init toySpec toyFS dbRoot []
      = .ok (⟨dbRoot, toySpec.names.map (fun n => (n, ⟨tableFile dbRoot n, df1x1zero⟩))⟩,
             toySpec.names.foldl (fun fs n =>
               fs.set (tableFile dbRoot n) (.file (.csv (toCsv df1x1zero)))) toyFS,
             toySpec.names.flatMap (fun n =>
               [IOEvent.readF (tableFile dbRoot n), IOEvent.writeF (tableFile dbRoot n)])) :=
  ⟨(C2_lazy_read_amended toySpec dbRoot).1 fsDirs _
      (fun n => if n = "A" then dfA2x2 else df1x1zero) (by decide) (by decide),
   (C2_lazy_read_amended toySpec dbRoot).2 toyFS (fun _ => toCsv df1x1zero)
      (fun _ => df1x1zero) (by decide) (by decide) (by decide) (by decide)⟩

theorem npDiag_length (v : List Val) : (npDiag v).length = v.length := by
  simp [npDiag]

theorem npDiag_nCols (v : List Val) : Mat.nCols (npDiag v) = v.length := by
  unfold Mat.nCols npDiag
  cases hv : v.length with
  | zero => simp
  | succ l =>
    rw [List.range_succ_eq_map]
    simp [hv]

theorem npDiag_wfb (v : List Val) : Mat.wfb (npDiag v) = true := by
  rw [Mat.wfb, List.all_eq_true]
  intro r hr
  rw [npDiag_nCols]
  simp only [npDiag, List.mem_map, List.mem_range] at hr
  obtain ⟨i, _, rfl⟩ := hr
  simp

theorem npDiagonal_length (m : Mat) :
    (npDiagonal m).length = min m.length (Mat.nCols m) := by
  simp [npDiagonal]

/-- Broadcasting a rectangular `k × k` matrix (`k > 1`) to `(k, k)` is the
identity. -/
theorem npBroadcastTo_self (m : Mat) (k : Nat) (h1 : 1 < k)
    (hw : Mat.wfb m = true) (hr : m.length = k) (hc : Mat.nCols m = k) :
    npBroadcastTo m k k = some m := by
  have hknot : ¬ k = 1 := by omega
  unfold npBroadcastTo
  rw [if_pos (by simp [npBroadcastOK, hr, hc])]
  unfold npBroadcastVals
  simp only [hr, hc, if_neg hknot]
  congr 1
  have step : ∀ i ∈ List.range k,
      (List.range k).map (fun j => (m.getD i []).getD j 0) = m.getD i [] := by
    intro i hi
    rw [List.mem_range] at hi
    have hilt : i < m.length := by omega
    have hlen : (m.getD i []).length = k := by
      rw [List.getD_eq_getElem m [] hilt]
      have hall := List.all_eq_true.mp hw _ (List.getElem_mem hilt)
      simp only [decide_eq_true_eq] at hall
      rw [hall, hc]
    rw [← hlen]
    exact range_map_getD 0 _
  rw [List.map_congr_left step, ← hr]
  exact range_map_getD [] m

/-- C8 (counterexample): the claim says `broadcast_to(target_shape, ...)`
replicates the stored matrix to `target_shape`.  Broadcasting the 1×1 table
to `(2, 2)` (with `is_diagonal=False`) succeeds in numpy, but the result is
then assigned back through `self._pd.iloc[:, :] = data` into the *original*
1×1 frame, where a 2×2 array cannot broadcast — the call raises
`ValueError` and stores nothing, so no table of target shape ever
results. -/
theorem C8_shape_change_fails :
    DataTable.broadcastTo t1x1 fsDirs 2 2 false = .error .valueError ∧
    (DataTable.broadcastTo t1x1 fsDirs 2 2 false).toOption = none := by
  constructor
  · decide
  · decide

/-- C8 (amended): `broadcast_to` raises `IndexError` (storing nothing)
whenever the stored matrix cannot numpy-broadcast to the target shape; and
in the use-case the code supports — a square `k × k` table broadcast to its
own shape `(k, k)` with `is_diagonal=True` and `k > 1` — the off-diagonal
entries are zeroed, the index, columns and shape are kept, and the result
is persisted.  (Any target shape other than the stored one makes the
write-back assignment fail, as the counterexample shows: the stored shape
never changes.) -/
theorem C8_broadcast_amended (t : DataTable) (fs : FS) :
    (∀ (R C : Nat) (isDiag : Bool),
      npBroadcastOK t.pd.values.length (Mat.nCols t.pd.values) R C = false →
      DataTable.broadcastTo t fs R C isDiag = .error .indexError) ∧
    (∀ k : Nat, 1 < k → Mat.wfb t.pd.values = true →
      t.pd.values.length = k → Mat.nCols t.pd.values = k →
      t.pd.nRows = k → t.pd.nCols = k →
      DataTable.broadcastTo t fs k k true
        = .ok (⟨t.path, { t.pd with values := npDiag (npDiagonal t.pd.values) }⟩,
               fs.set t.path (.file (.csv (toCsv
                 { t.pd with values := npDiag (npDiagonal t.pd.values) }))),
               [.writeF t.path])) := by
  constructor
  · intro R C isDiag h
    unfold DataTable.broadcastTo
    have hnone : npBroadcastTo t.pd.values R C = none := by
      simp only [npBroadcastTo]
      rw [if_neg (by rw [h]; exact Bool.false_ne_true)]
    rw [hnone]
    rfl
  · intro k hk hw h1 h2 h3 h4
    have hbool : (true && decide (k > 1)) = true := by simp [hk]
    have hset : npBroadcastTo (npDiag (npDiagonal t.pd.values)) t.pd.nRows t.pd.nCols
        = some (npDiag (npDiagonal t.pd.values)) := by
      rw [h3, h4]
      refine npBroadcastTo_self _ k hk (npDiag_wfb _) ?_ ?_
      · rw [npDiag_length, npDiagonal_length, h1, h2, Nat.min_self]
      · rw [npDiag_nCols, npDiagonal_length, h1, h2, Nat.min_self]
    unfold DataTable.broadcastTo DataTable.callNoPath ilocSetAll
    rw [npBroadcastTo_self t.pd.values k hk hw h1 h2]
    simp only [hbool, eq_self_iff_true, if_true]
    rw [ok_bind]
    simp only [hset]
    rfl

/-- C8 witness: the amended statement at concrete inputs — an impossible
broadcast raises `IndexError`; zeroing the off-diagonal of the 2×2 table
in place succeeds and persists. -/
theorem C8_broadcast_amended_witness :
    DataTable.broadcastTo t2x2 fsDirs 3 5 true = .error .indexError ∧
    DataTable.broadcastTo t2x2 fsDirs 2 2 true
      = .ok (⟨t2x2.path, { t2x2.pd with values := npDiag (npDiagonal t2x2.pd.values) }⟩,
             fsDirs.set t2x2.path (.file (.csv (toCsv
               { t2x2.pd with values := npDiag (npDiagonal t2x2.pd.values) }))),
             [.writeF t2x2.path]) :=
  ⟨(C8_broadcast_amended t2x2 fsDirs).1 3 5 true (by decide),
   (C8_broadcast_amended t2x2 fsDirs).2 2 (by decide) (by decide) (by decide)
     (by decide) (by decide) (by decide)⟩

theorem mdMerge_nil (d : MetaData) : mdMerge d [] = d := by
  simp [mdMerge]

/-- C9: `Meta.create(path)` with no metadata neither fails nor stores an
empty record — it persists the placeholder
`{'NotImplemented': 'in call to Meta.create()'}`; with non-empty data the
supplied record is stored verbatim. -/
theorem C9_meta_create_placeholder (fs : FS) (path : FPath)
    (hready : dirsReady fs (withSuffix path ".json").dropLast = true) :
    Meta.create fs path []
      = .ok (metaPlaceholder, withSuffix path ".json",
             fs.set (withSuffix path ".json") (.file (.json metaPlaceholder))) ∧
    metaPlaceholder ≠ [] ∧
    (∀ d : MetaData, d ≠ [] →
      Meta.create fs path d
        = .ok (d, withSuffix path ".json",
               fs.set (withSuffix path ".json") (.file (.json d)))) := by
  refine ⟨?_, by decide, ?_⟩
  · show Meta.init fs path metaPlaceholder = _
    unfold Meta.init
    rw [mkdirParents_of_ready hready, ok_bind,
      if_neg (by decide : ¬ (metaPlaceholder = []))]
    unfold Meta.call
    rw [mkdirParents_of_ready hready, ok_bind, mdMerge_nil]
  · intro d hd
    unfold Meta.create
    rw [if_neg hd]
    unfold Meta.init
    rw [mkdirParents_of_ready hready, ok_bind, if_neg hd]
    unfold Meta.call
    rw [mkdirParents_of_ready hready, ok_bind, mdMerge_nil]

/-- C9 witness: creating metadata at `tmp/meta` with and without data. -/
theorem C9_meta_create_placeholder_witness :
    Meta.create fsDirs ["tmp", "meta"] []
      = .ok (metaPlaceholder, withSuffix ["tmp", "meta"] ".json",
             fsDirs.set (withSuffix ["tmp", "meta"] ".json")
               (.file (.json metaPlaceholder))) ∧
    Meta.create fsDirs ["tmp", "meta"] [("k", "v")]
      = .ok ([("k", "v")], withSuffix ["tmp", "meta"] ".json",
             fsDirs.set (withSuffix ["tmp", "meta"] ".json")
               (.file (.json [("k", "v")]))) :=
  ⟨(C9_meta_create_placeholder fsDirs ["tmp", "meta"] (by decide)).1,
   (C9_meta_create_placeholder fsDirs ["tmp", "meta"] (by decide)).2.2
     [("k", "v")] (by decide)⟩

/-- C10: updating a constructed `DataTable` through its call operator with
a bare numeric matrix keeps the index and the (possibly hierarchical)
column headers exactly and replaces only the cell values (with the numpy
broadcast of the matrix), whereas a `DataFrame` argument replaces index,
columns and values wholesale. -/
theorem C10_matrix_update_frame (pd d : DataFrame) (path : FPath) (fs : FS)
    (m : Mat)
    (hok : npBroadcastOK m.length (Mat.nCols m) pd.nRows pd.nCols = true) :
    DataTable.callNoPath (some pd) path (some (.mat m)) fs
      = .ok (⟨pd.index, pd.columns, npBroadcastVals m pd.nRows pd.nCols⟩,
             fs.set path (.file (.csv (toCsv
               ⟨pd.index, pd.columns, npBroadcastVals m pd.nRows pd.nCols⟩))),
             [.writeF path]) ∧
    DataTable.callNoPath (some pd) path (some (.df d)) fs
      = .ok (d, fs.set path (.file (.csv (toCsv d))), [.writeF path]) := by
  constructor
  · have hsome : npBroadcastTo m pd.nRows pd.nCols
        = some (npBroadcastVals m pd.nRows pd.nCols) := by
      unfold npBroadcastTo
      rw [if_pos hok]
    unfold DataTable.callNoPath ilocSetAll
    simp only [hsome]
    rfl
  · rfl

/-- C10 witness: broadcasting `[[5]]` into the 1×2 hierarchical-column
frame keeps its index and columns; a frame argument replaces everything. -/
theorem C10_matrix_update_frame_witness :
    DataTable.callNoPath (some pdH) (dbRoot ++ ["H.csv"]) (some (.mat [[5]])) fsDirs
      = .ok (⟨pdH.index, pdH.columns, npBroadcastVals [[5]] pdH.nRows pdH.nCols⟩,
             fsDirs.set (dbRoot ++ ["H.csv"]) (.file (.csv (toCsv
               ⟨pdH.index, pdH.columns, npBroadcastVals [[5]] pdH.nRows pdH.nCols⟩))),
             [.writeF (dbRoot ++ ["H.csv"])]) ∧
    DataTable.callNoPath (some pdH) (dbRoot ++ ["H.csv"]) (some (.df dfA2x2)) fsDirs
      = .ok (dfA2x2, fsDirs.set (dbRoot ++ ["H.csv"]) (.file (.csv (toCsv dfA2x2))),
             [.writeF (dbRoot ++ ["H.csv"])]) :=
  C10_matrix_update_frame pdH dfA2x2 (dbRoot ++ ["H.csv"]) fsDirs [[5]] (by decide)

end RomCom

